import Mathlib

/-!
Shallow embedding of the grouped bar layout calculator of `src/plot.py`
(`bar_subplot`, lines 118-141, and the file-writing wrapper `bar_plot`,
lines 144-165), together with the fixed visual-encoding palettes
(`palette`, lines 45-58, and `hatch_list`, line 60).

Python floats are modelled by exact rationals (`ℚ`); the arithmetic the
layout performs (division by the series count, halving, repeated addition
of the bar width) is exactly representable, so the rational model computes
the same positions the float code does up to rounding.  The
`ZeroDivisionError` that Python raises at `width_scale/nb_catgs` when the
series list is empty is modelled by an explicit `Except` error branch.
The rendering collaborator (`ax.bar`) is modelled by recording each draw
call the loop emits as a `BarCall` value, in emission order.
-/

namespace PlotStyle

/-- The fixed 10-colour palette of `src/plot.py` lines 45-58
(`colorBlindness::PairedColor12Steps`, with the green swapped out). -/
def palette : List String :=
  ["#19B2FF", "#2ca02c", "#FF7F00", "#654CFF", "#E51932",
   "#FFBF7F", "#FFFF99", "#B2FF8C", "#A5EDFF", "#CCBFFF"]

/-- The fixed 4-pattern hatch cycle of `src/plot.py` line 60. -/
def hatch_list : List String := ["////////", "-----", "+++++++", "|||||||"]

/-- One data series of the Python data model: a dict with keys
`label`, `values` and `errors` (see `example_bar_plot` in `src/plot.py`). -/
structure Series where
  label : String
  values : List ℚ
  errors : List ℚ
  deriving Repr, DecidableEq, Inhabited

/-- One `ax.bar` draw call emitted by the loop of `bar_subplot`
(`src/plot.py` lines 125-129): positions `x + offset`, the series values,
the bar width, the error magnitudes, the series label, and the colour and
hatch drawn from the two cyclic palettes. -/
structure BarCall where
  positions : List ℚ
  values : List ℚ
  barWidth : ℚ
  errors : List ℚ
  label : String
  color : String
  hatch : String
  deriving Repr, DecidableEq, Inhabited

/-- The only failure `bar_subplot` itself can raise: the Python
`ZeroDivisionError` at `bar_width = width_scale/nb_catgs` when the series
list is empty (`src/plot.py` line 122). -/
inductive LayoutError where
  | divisionByZero
  deriving Repr, DecidableEq, Inhabited

/-- The `for d, color, hatch in zip(data, cycle(palette), cycle(hatch_list))`
loop of `bar_subplot` (`src/plot.py` lines 125-130): each series emits one
`ax.bar` call at positions `x + offset`, then the running offset advances by
`bar_width`.  The two cyclic iterators are embedded as index-modulo lookups;
`j` is the zero-based index of the current series in the original input. -/
def barLoop (x : List ℚ) (bar_width : ℚ) :
    List Series → ℚ → ℕ → List BarCall
  | [], _, _ => []
  | d :: rest, offset, j =>
    { positions := x.map (fun p => p + offset)
      values := d.values
      barWidth := bar_width
      errors := d.errors
      label := d.label
      color := palette.getD (j % palette.length) ""
      hatch := hatch_list.getD (j % hatch_list.length) "" } ::
    barLoop x bar_width rest (offset + bar_width) (j + 1)

/-- The layout calculator `bar_subplot` of `src/plot.py` lines 118-130:
`x = arange(len(xtick_labels))`, `nb_catgs = len(data)`,
`bar_width = width_scale/nb_catgs`, `offset = bar_width*(1-nb_catgs)/2`,
then the per-series emission loop.  The axis-decoration statements
(lines 132-141) touch no series data and emit no bar, so they are not part
of the layout model.  When `data` is empty, Python raises
`ZeroDivisionError` at line 122 before any `ax.bar` call; that is the
`Except.error` branch. -/
def bar_subplot (xtick_labels : List String) (data : List Series)
    (width_scale : ℚ) : Except LayoutError (List BarCall) :=
  let x : List ℚ := (List.range xtick_labels.length).map (fun (i : ℕ) => (i : ℚ))
  let nb_catgs : ℕ := data.length
  if nb_catgs = 0 then
    Except.error LayoutError.divisionByZero
  else
    let bar_width : ℚ := width_scale / (nb_catgs : ℚ)
    let offset : ℚ := bar_width * (1 - (nb_catgs : ℚ)) / 2
    Except.ok (barLoop x bar_width data offset 0)

/-- The wrapper `bar_plot` of `src/plot.py` lines 144-165: it runs
`bar_subplot` on the same data, then saves the figure twice, to
`dest_dir / (fig_name ++ ".pdf")` and `dest_dir / (fig_name ++ ".png")`
(lines 164-165).  The model returns the emitted draw calls together with
the list of file paths written, in write order; path joining
`dest_dir / name` is modelled as `dest_dir ++ "/" ++ name`. -/
def bar_plot (xtick_labels : List String) (data : List Series)
    (width_scale : ℚ) (fig_name dest_dir : String) :
    Except LayoutError (List BarCall × List String) :=
  match bar_subplot xtick_labels data width_scale with
  | Except.error e => Except.error e
  | Except.ok calls =>
      Except.ok (calls,
        [dest_dir ++ "/" ++ fig_name ++ ".pdf",
         dest_dir ++ "/" ++ fig_name ++ ".png"])

/-- Horizontal offset of the bar of series `j` at category slot `i`:
the emitted position minus the integer slot position `i`. -/
def offAt (r : List BarCall) (j i : ℕ) : ℚ :=
  (r.getD j default).positions.getD i 0 - (i : ℚ)

/-! Concrete sample inputs and expected outputs used by the witness
theorems below. -/

/-- Two category labels, for a 2-slot axis. -/
def wLabels : List String := ["A", "B"]

/-- Two sample series over the 2-slot axis. -/
def wData : List Series :=
  [{ label := "s1", values := [1, 2], errors := [0, 0] },
   { label := "s2", values := [3, 4], errors := [0, 0] }]

/-- The draw calls emitted on `wLabels`/`wData` with width scale `7/10`:
bar width `7/20`, offsets `-7/40` and `7/40`. -/
def wCalls : List BarCall :=
  [{ positions := [-7/40, 33/40], values := [1, 2], barWidth := 7/20,
     errors := [0, 0], label := "s1", color := "#19B2FF", hatch := "////////" },
   { positions := [7/40, 47/40], values := [3, 4], barWidth := 7/20,
     errors := [0, 0], label := "s2", color := "#2ca02c", hatch := "-----" }]

/-- Five category labels, for a 5-slot axis. -/
def wLabels5 : List String := ["A", "B", "C", "D", "E"]

/-- Two sample series over the 5-slot axis. -/
def wData5 : List Series :=
  [{ label := "s1", values := [1, 2, 3, 4, 5], errors := [0, 0, 0, 0, 0] },
   { label := "s2", values := [5, 4, 3, 2, 1], errors := [0, 0, 0, 0, 0] }]

/-- The draw calls emitted on `wLabels5`/`wData5` with width scale `7/10`:
bar width `7/20`, base positions `[0..4]` shifted by `-7/40` and `7/40`. -/
def wCalls5 : List BarCall :=
  [{ positions := [-7/40, 33/40, 73/40, 113/40, 153/40],
     values := [1, 2, 3, 4, 5], barWidth := 7/20, errors := [0, 0, 0, 0, 0],
     label := "s1", color := "#19B2FF", hatch := "////////" },
   { positions := [7/40, 47/40, 87/40, 127/40, 167/40],
     values := [5, 4, 3, 2, 1], barWidth := 7/20, errors := [0, 0, 0, 0, 0],
     label := "s2", color := "#2ca02c", hatch := "-----" }]

/-- The single series of the spec scenario for M = 1. -/
def wSingle : Series := { label := "one", values := [1, 2], errors := [1/10, 1/5] }

/-- The single draw call emitted on `wLabels`/`[wSingle]` with width scale
`7/10`: positions `[0, 1]`, bar width `7/10`, no shift. -/
def wSingleCalls : List BarCall :=
  [{ positions := [0, 1], values := [1, 2], barWidth := 7/10,
     errors := [1/10, 1/5], label := "one", color := "#19B2FF",
     hatch := "////////" }]

/-- Twelve identical series, enough to wrap both the 10-colour and the
4-hatch cycles. -/
def w12Data : List Series :=
  List.replicate 12 { label := "s", values := [1], errors := [0] }

/-- The draw calls emitted on a 1-slot axis over `w12Data`. -/
def w12Calls : List BarCall :=
  (bar_subplot ["A"] w12Data (7/10)).toOption.getD []

/-- The single draw call emitted by the `bar_plot` sample call of the C9
witness. -/
def wPlotCalls : List BarCall :=
  [{ positions := [0], values := [1], barWidth := 7/10,
     errors := [0], label := "s", color := "#19B2FF", hatch := "////////" }]

/-! Structural lemmas about the emission loop and the calculator. -/

lemma barLoop_length (x : List ℚ) (bw : ℚ) (ds : List Series) (off : ℚ) (j : ℕ) :
    (barLoop x bw ds off j).length = ds.length := by
  induction ds generalizing off j with
  | nil => rfl
  | cons d rest ih => simp [barLoop, ih]

/-- Closed form of the loop: the bar call of series `k` (relative to the
loop entry with running offset `off` and palette index `j0`) shifts `x` by
`off + k * bar_width` and draws palette entry `(j0 + k) mod 10` with hatch
entry `(j0 + k) mod 4`. -/
lemma barLoop_getD (x : List ℚ) (bw : ℚ) (ds : List Series) :
    ∀ (off : ℚ) (j0 k : ℕ), k < ds.length →
      (barLoop x bw ds off j0).getD k default =
        { positions := x.map (fun p => p + (off + (k : ℚ) * bw))
          values := (ds.getD k default).values
          barWidth := bw
          errors := (ds.getD k default).errors
          label := (ds.getD k default).label
          color := palette.getD ((j0 + k) % palette.length) ""
          hatch := hatch_list.getD ((j0 + k) % hatch_list.length) "" } := by
  induction ds with
  | nil => intro off j0 k h; simp at h
  | cons d rest ih =>
    intro off j0 k h
    cases k with
    | zero =>
      simp [barLoop]
    | succ k =>
      have hk : k < rest.length := by simpa using h
      rw [show barLoop x bw (d :: rest) off j0 =
            ({ positions := x.map (fun p => p + off), values := d.values,
               barWidth := bw, errors := d.errors, label := d.label,
               color := palette.getD (j0 % palette.length) "",
               hatch := hatch_list.getD (j0 % hatch_list.length) "" } : BarCall) ::
            barLoop x bw rest (off + bw) (j0 + 1) from rfl]
      rw [List.getD_cons_succ]
      rw [ih (off + bw) (j0 + 1) k hk]
      have h2 : j0 + 1 + k = j0 + (k + 1) := by omega
      simp [BarCall.mk.injEq, h2]
      intro a _
      ring

/-- The loop forwards each series as one draw call and nothing else: the
label/values/errors content of the emitted calls is exactly the input. -/
lemma barLoop_proj (x : List ℚ) (bw : ℚ) (ds : List Series) :
    ∀ (off : ℚ) (j : ℕ),
      (barLoop x bw ds off j).map (fun c => (c.label, c.values, c.errors)) =
        ds.map (fun d => (d.label, d.values, d.errors)) := by
  induction ds with
  | nil => intro off j; rfl
  | cons d rest ih => intro off j; simp [barLoop, ih]

lemma bar_subplot_ok_eq (labels : List String) (data : List Series) (ws : ℚ)
    (h : data ≠ []) :
    bar_subplot labels data ws =
      Except.ok (barLoop ((List.range labels.length).map (fun (i : ℕ) => (i : ℚ)))
        (ws / (data.length : ℚ)) data
        ((ws / (data.length : ℚ)) * (1 - (data.length : ℚ)) / 2) 0) := by
  have hlen : data.length ≠ 0 := by simpa [List.length_eq_zero] using h
  unfold bar_subplot
  simp [hlen]

lemma bar_subplot_ne_nil (labels : List String) (data : List Series) (ws : ℚ)
    (r : List BarCall) (hr : bar_subplot labels data ws = Except.ok r) :
    data ≠ [] := by
  intro hnil
  subst hnil
  simp [bar_subplot] at hr

lemma bar_subplot_result (labels : List String) (data : List Series) (ws : ℚ)
    (r : List BarCall) (hr : bar_subplot labels data ws = Except.ok r) :
    r = barLoop ((List.range labels.length).map (fun (i : ℕ) => (i : ℚ)))
      (ws / (data.length : ℚ)) data
      ((ws / (data.length : ℚ)) * (1 - (data.length : ℚ)) / 2) 0 := by
  have h := bar_subplot_ok_eq labels data ws (bar_subplot_ne_nil labels data ws r hr)
  rw [hr] at h
  exact (Except.ok.injEq _ _).mp h

/-- Closed form of the calculator on the success branch: the call for the
series at input index `j` carries base positions `[0, ..., N-1]` shifted by
`initial_offset + j * bar_width`, the series data verbatim, and the
palette/hatch entries at index `j` modulo the palette sizes. -/
lemma bar_subplot_getD (labels : List String) (data : List Series) (ws : ℚ)
    (r : List BarCall) (hr : bar_subplot labels data ws = Except.ok r)
    (j : ℕ) (hj : j < data.length) :
    r.getD j default =
      { positions := (List.range labels.length).map
          (fun (i : ℕ) => (i : ℚ) +
            ((ws / (data.length : ℚ)) * (1 - (data.length : ℚ)) / 2 +
              (j : ℚ) * (ws / (data.length : ℚ))))
        values := (data.getD j default).values
        barWidth := ws / (data.length : ℚ)
        errors := (data.getD j default).errors
        label := (data.getD j default).label
        color := palette.getD (j % palette.length) ""
        hatch := hatch_list.getD (j % hatch_list.length) "" } := by
  rw [bar_subplot_result labels data ws r hr]
  rw [barLoop_getD _ _ data _ 0 j hj]
  simp [BarCall.mk.injEq, List.map_map, Function.comp]

lemma getD_map_range (f : ℕ → ℚ) (N i : ℕ) (h : i < N) :
    ((List.range N).map f).getD i 0 = f i := by
  simp [List.getD_eq_getElem?_getD, List.getElem?_map, List.getElem?_range h]

lemma sum_range_cast_rat (n : ℕ) :
    (∑ j ∈ Finset.range n, (j : ℚ)) = n * (n - 1) / 2 := by
  induction n with
  | zero => simp
  | succ n ih => rw [Finset.sum_range_succ, ih]; push_cast; ring

/-- The offset the calculator gives the bar of series `j` at any slot
`i < N`: `initial_offset + j * bar_width`, independent of `i`. -/
lemma offAt_formula (labels : List String) (data : List Series) (ws : ℚ)
    (r : List BarCall) (hr : bar_subplot labels data ws = Except.ok r)
    (j i : ℕ) (hj : j < data.length) (hi : i < labels.length) :
    offAt r j i =
      (ws / (data.length : ℚ)) * (1 - (data.length : ℚ)) / 2 +
        (j : ℚ) * (ws / (data.length : ℚ)) := by
  unfold offAt
  rw [bar_subplot_getD labels data ws r hr j hj]
  simp only [List.map_map]
  rw [getD_map_range _ _ _ hi]
  simp [Function.comp]

/-! Evaluation lemmas for the sample inputs. -/

lemma wCalls_eq : bar_subplot wLabels wData (7/10) = Except.ok wCalls := by
  norm_num [bar_subplot, barLoop, palette, hatch_list, wLabels, wData, wCalls,
    List.range_succ]

lemma wCalls5_eq : bar_subplot wLabels5 wData5 (7/10) = Except.ok wCalls5 := by
  norm_num [bar_subplot, barLoop, palette, hatch_list, wLabels5, wData5,
    wCalls5, List.range_succ]

lemma wSingleCalls_eq :
    bar_subplot wLabels [wSingle] (7/10) = Except.ok wSingleCalls := by
  norm_num [bar_subplot, barLoop, palette, hatch_list, wLabels, wSingle,
    wSingleCalls, List.range_succ]

lemma w12Calls_eq : bar_subplot ["A"] w12Data (7/10) = Except.ok w12Calls := by
  have h := bar_subplot_ok_eq ["A"] w12Data (7/10) (by simp [w12Data])
  rw [h]
  unfold w12Calls
  rw [h]
  rfl

/-! The claim theorems. -/

/-- Claim C1: for every call to the layout calculator that succeeds (so
M ≥ 1), with `bar_width = width_scale / M` and
`initial_offset = bar_width * (1 - M) / 2`, the position array emitted for
the series at input index `j` equals `[0, 1, ..., N-1]` shifted by
`initial_offset + j * bar_width`; the call at index `j` carries the label
of the `j`-th input series, so series are processed in input order. -/
theorem bar_subplot_series_positions (labels : List String) (data : List Series)
    (ws : ℚ) (r : List BarCall)
    (hr : bar_subplot labels data ws = Except.ok r)
    (j : ℕ) (hj : j < data.length) :
    (r.getD j default).positions =
      (List.range labels.length).map
        (fun (i : ℕ) => (i : ℚ) +
          ((ws / (data.length : ℚ)) * (1 - (data.length : ℚ)) / 2 +
            (j : ℚ) * (ws / (data.length : ℚ)))) ∧
    (r.getD j default).label = (data.getD j default).label := by
  rw [bar_subplot_getD labels data ws r hr j hj]
  exact ⟨rfl, rfl⟩

/-- Witness for C1: on `wLabels`/`wData` with width scale `7/10` the second
series (j = 1) is the base positions `[0, 1]` shifted by `+7/40`. -/
theorem bar_subplot_series_positions_witness :
    (wCalls.getD 1 default).positions = [7/40, 47/40] ∧
    (wCalls.getD 1 default).label = "s2" := by
  have h := bar_subplot_series_positions wLabels wData (7/10) wCalls wCalls_eq
    1 (by norm_num [wData])
  refine ⟨?_, ?_⟩
  · rw [h.1]
    norm_num [wLabels, wData, List.range_succ]
  · rw [h.2]
    rfl

/-- Claim C2: for every successful call (N ≥ 1, M ≥ 1, width_scale in
(0,1]), at any slot `i`: consecutive per-series offsets differ by exactly
`width_scale/M` (evenly spaced), adjacent bars share an edge (contiguous),
bar centres are strictly increasing (non-overlapping), the offsets sum to
0 exactly (symmetric about 0), the first and last offsets are opposite
(the group is jointly centred on the slot), and the span from the left
edge of the first bar to the right edge of the last is `width_scale`. -/
theorem bar_subplot_slot_geometry (labels : List String) (data : List Series)
    (ws : ℚ) (r : List BarCall)
    (hr : bar_subplot labels data ws = Except.ok r)
    (hws0 : 0 < ws) (hws1 : ws ≤ 1) (i : ℕ) (hi : i < labels.length) :
    (∀ j, j + 1 < data.length →
        offAt r (j + 1) i - offAt r j i = ws / (data.length : ℚ)) ∧
    (∀ j, j + 1 < data.length →
        offAt r j i + (ws / (data.length : ℚ)) / 2 =
          offAt r (j + 1) i - (ws / (data.length : ℚ)) / 2) ∧
    (∀ j, j + 1 < data.length → offAt r j i < offAt r (j + 1) i) ∧
    (∑ j ∈ Finset.range data.length, offAt r j i) = 0 ∧
    offAt r 0 i + offAt r (data.length - 1) i = 0 ∧
    (offAt r (data.length - 1) i + (ws / (data.length : ℚ)) / 2) -
      (offAt r 0 i - (ws / (data.length : ℚ)) / 2) = ws := by
  have hne : data ≠ [] := bar_subplot_ne_nil labels data ws r hr
  have hM : 0 < data.length := List.length_pos.mpr hne
  have hMQ : (data.length : ℚ) ≠ 0 := Nat.cast_ne_zero.mpr (Nat.pos_iff_ne_zero.mp hM)
  have hMQ0 : (0 : ℚ) < (data.length : ℚ) := by exact_mod_cast hM
  have hbw : 0 < ws / (data.length : ℚ) := div_pos hws0 hMQ0
  have hstep : ∀ j, j + 1 < data.length →
      offAt r (j + 1) i - offAt r j i = ws / (data.length : ℚ) := by
    intro j hj
    rw [offAt_formula labels data ws r hr (j + 1) i hj hi,
        offAt_formula labels data ws r hr j i (by omega) hi]
    push_cast
    ring
  refine ⟨hstep, ?_, ?_, ?_, ?_, ?_⟩
  · intro j hj
    have := hstep j hj
    linarith
  · intro j hj
    have := hstep j hj
    linarith
  · have hcongr : (∑ j ∈ Finset.range data.length, offAt r j i) =
        ∑ j ∈ Finset.range data.length,
          ((ws / (data.length : ℚ)) * (1 - (data.length : ℚ)) / 2 +
            (j : ℚ) * (ws / (data.length : ℚ))) := by
      refine Finset.sum_congr rfl (fun j hj => ?_)
      exact offAt_formula labels data ws r hr j i (Finset.mem_range.mp hj) hi
    rw [hcongr, Finset.sum_add_distrib, Finset.sum_const, Finset.card_range,
        ← Finset.sum_mul, sum_range_cast_rat]
    field_simp
    ring
  · rw [offAt_formula labels data ws r hr 0 i hM hi,
        offAt_formula labels data ws r hr (data.length - 1) i (by omega) hi,
        Nat.cast_sub (by omega : 1 ≤ data.length)]
    push_cast
    ring
  · rw [offAt_formula labels data ws r hr 0 i hM hi,
        offAt_formula labels data ws r hr (data.length - 1) i (by omega) hi,
        Nat.cast_sub (by omega : 1 ≤ data.length)]
    push_cast
    field_simp
    ring

/-- Witness for C2: on `wLabels`/`wData` with width scale `7/10` at slot 0,
the two offsets differ by `7/20`, are strictly ordered, sum to 0, are
opposite, and span a total width of `7/10`. -/
theorem bar_subplot_slot_geometry_witness :
    offAt wCalls 1 0 - offAt wCalls 0 0 = 7/20 ∧
    offAt wCalls 0 0 < offAt wCalls 1 0 ∧
    (∑ j ∈ Finset.range 2, offAt wCalls j 0) = 0 ∧
    offAt wCalls 0 0 + offAt wCalls 1 0 = 0 ∧
    (offAt wCalls 1 0 + 7/40) - (offAt wCalls 0 0 - 7/40) = 7/10 := by
  obtain ⟨h1, h2, h3, h4, h5, h6⟩ :=
    bar_subplot_slot_geometry wLabels wData (7/10) wCalls wCalls_eq
      (by norm_num) (by norm_num) 0 (by norm_num [wLabels])
  refine ⟨?_, ?_, ?_, ?_, ?_⟩
  · have h := h1 0 (by norm_num [wData])
    norm_num [wData] at h
    exact h
  · have h := h3 0 (by norm_num [wData])
    exact h
  · have h := h4
    norm_num [wData] at h
    exact h
  · have h := h5
    norm_num [wData] at h
    exact h
  · have h := h6
    norm_num [wData] at h
    linarith

/-- Claim C3, evaluated on the code: called with five category labels and a
single series of only three values, `bar_subplot` raises no error and
emits a rendering call whose value list is 3 long against 5 positions.
The source performs no series/category shape validation, so no
`InvalidSeriesShape` failure happens before delegation; the mismatched
series is handed to the rendering collaborator unchanged. -/
theorem bar_subplot_no_shape_validation :
    ∃ c : BarCall,
      bar_subplot ["A", "B", "C", "D", "E"]
          [{ label := "s", values := [1, 2, 3], errors := [1, 1, 1] }]
          (7/10) =
        Except.ok [c] ∧ c.values.length = 3 ∧ c.positions.length = 5 := by
  refine ⟨{ positions := [0, 1, 2, 3, 4], values := [1, 2, 3],
            barWidth := 7/10, errors := [1, 1, 1], label := "s",
            color := "#19B2FF", hatch := "////////" }, ?_, rfl, rfl⟩
  norm_num [bar_subplot, barLoop, palette, hatch_list, List.range_succ]

/-- Claim C4: in every successful call, the series at input index `j` is
drawn with colour `palette[j mod 10]` and hatch `hatch_list[j mod 4]`, so
whenever index `k + 10` exists it repeats the colour of index `k`, and
whenever index `k + 4` exists it repeats the hatch of index `k`. -/
theorem bar_subplot_color_hatch_cycle (labels : List String)
    (data : List Series) (ws : ℚ) (r : List BarCall)
    (hr : bar_subplot labels data ws = Except.ok r)
    (j : ℕ) (hj : j < data.length) :
    (r.getD j default).color = palette.getD (j % 10) "" ∧
    (r.getD j default).hatch = hatch_list.getD (j % 4) "" ∧
    (∀ k, k + 10 < data.length →
        (r.getD (k + 10) default).color = (r.getD k default).color) ∧
    (∀ k, k + 4 < data.length →
        (r.getD (k + 4) default).hatch = (r.getD k default).hatch) := by
  refine ⟨?_, ?_, ?_, ?_⟩
  · rw [bar_subplot_getD labels data ws r hr j hj]
    rfl
  · rw [bar_subplot_getD labels data ws r hr j hj]
    rfl
  · intro k hk
    rw [bar_subplot_getD labels data ws r hr (k + 10) hk,
        bar_subplot_getD labels data ws r hr k (by omega)]
    show palette.getD ((k + 10) % 10) "" = palette.getD (k % 10) ""
    rw [Nat.add_mod_right]
  · intro k hk
    rw [bar_subplot_getD labels data ws r hr (k + 4) hk,
        bar_subplot_getD labels data ws r hr k (by omega)]
    show hatch_list.getD ((k + 4) % 4) "" = hatch_list.getD (k % 4) ""
    rw [Nat.add_mod_right]

/-- Witness for C4: with 12 series, series 1 gets the second palette colour
and second hatch, series 10 repeats the colour of series 0, and series 4
repeats the hatch of series 0. -/
theorem bar_subplot_color_hatch_cycle_witness :
    (w12Calls.getD 1 default).color = "#2ca02c" ∧
    (w12Calls.getD 1 default).hatch = "-----" ∧
    (w12Calls.getD 10 default).color = (w12Calls.getD 0 default).color ∧
    (w12Calls.getD 4 default).hatch = (w12Calls.getD 0 default).hatch := by
  obtain ⟨hc, hh, hcw, hhw⟩ :=
    bar_subplot_color_hatch_cycle ["A"] w12Data (7/10) w12Calls w12Calls_eq
      1 (by simp [w12Data])
  refine ⟨?_, ?_, hcw 0 (by simp [w12Data]), hhw 0 (by simp [w12Data])⟩
  · rw [hc]
    rfl
  · rw [hh]
    rfl

/-- Claim C5: when exactly one series is supplied (M = 1), the emitted
position array is exactly `[0, 1, ..., N-1]` with no horizontal shift, and
the bar width equals `width_scale` itself. -/
theorem bar_subplot_single_series (labels : List String) (d : Series)
    (ws : ℚ) (r : List BarCall) (hN : 1 ≤ labels.length)
    (hr : bar_subplot labels [d] ws = Except.ok r) :
    (r.getD 0 default).positions =
      (List.range labels.length).map (fun (i : ℕ) => (i : ℚ)) ∧
    (r.getD 0 default).barWidth = ws := by
  rw [bar_subplot_getD labels [d] ws r hr 0 (by simp)]
  constructor
  · norm_num
  · norm_num

/-- Witness for C5, the spec scenario: labels `["A","B"]`, one series with
values `[1,2]` and errors `[1/10, 1/5]`, width scale `7/10`; positions are
`[0, 1]` and the bar width is `7/10`. -/
theorem bar_subplot_single_series_witness :
    (wSingleCalls.getD 0 default).positions = [0, 1] ∧
    (wSingleCalls.getD 0 default).barWidth = 7/10 := by
  have h := bar_subplot_single_series wLabels wSingle (7/10) wSingleCalls
    (by norm_num [wLabels]) wSingleCalls_eq
  refine ⟨?_, h.2⟩
  rw [h.1]
  norm_num [wLabels, List.range_succ]

/-- Claim C6: for a call with two series, five category labels and width
scale `7/10`, the bar width is `7/20 = 0.35` and the two per-series
offsets applied to the base positions `[0..4]` are `-7/40 = -0.175` and
`7/40 = 0.175`. -/
theorem bar_subplot_two_series_five_slots (labels : List String)
    (s1 s2 : Series) (r : List BarCall) (hN : labels.length = 5)
    (hr : bar_subplot labels [s1, s2] (7/10) = Except.ok r) :
    (r.getD 0 default).barWidth = 7/20 ∧
    (r.getD 1 default).barWidth = 7/20 ∧
    (r.getD 0 default).positions =
      (List.range 5).map (fun (i : ℕ) => (i : ℚ) + -(7/40)) ∧
    (r.getD 1 default).positions =
      (List.range 5).map (fun (i : ℕ) => (i : ℚ) + 7/40) := by
  rw [bar_subplot_getD labels [s1, s2] (7/10) r hr 0 (by norm_num),
      bar_subplot_getD labels [s1, s2] (7/10) r hr 1 (by norm_num), hN]
  norm_num

/-- Witness for C6: on `wLabels5`/`wData5` the bar width is `7/20` and the
positions are `[0..4]` shifted by `-7/40` and `7/40` respectively. -/
theorem bar_subplot_two_series_five_slots_witness :
    (wCalls5.getD 0 default).barWidth = 7/20 ∧
    (wCalls5.getD 1 default).barWidth = 7/20 ∧
    (wCalls5.getD 0 default).positions =
      [-7/40, 33/40, 73/40, 113/40, 153/40] ∧
    (wCalls5.getD 1 default).positions =
      [7/40, 47/40, 87/40, 127/40, 167/40] := by
  obtain ⟨h1, h2, h3, h4⟩ :=
    bar_subplot_two_series_five_slots wLabels5
      { label := "s1", values := [1, 2, 3, 4, 5], errors := [0, 0, 0, 0, 0] }
      { label := "s2", values := [5, 4, 3, 2, 1], errors := [0, 0, 0, 0, 0] }
      wCalls5 (by norm_num [wLabels5]) (by rw [show ([{ label := "s1", values := [1, 2, 3, 4, 5], errors := [0, 0, 0, 0, 0] }, { label := "s2", values := [5, 4, 3, 2, 1], errors := [0, 0, 0, 0, 0] }] : List Series) = wData5 from rfl]; exact wCalls5_eq)
  refine ⟨h1, h2, ?_, ?_⟩
  · rw [h3]
    norm_num [List.range_succ]
  · rw [h4]
    norm_num [List.range_succ]

/-- Claim C7: the layout calculator is deterministic and has no hidden
state: it is a pure function of its three arguments, so two calls with
identical category labels, series data and width scale yield the identical
result, position arrays and colour/hatch assignments included. -/
theorem bar_subplot_deterministic (l1 l2 : List String)
    (d1 d2 : List Series) (w1 w2 : ℚ)
    (hl : l1 = l2) (hd : d1 = d2) (hw : w1 = w2) :
    bar_subplot l1 d1 w1 = bar_subplot l2 d2 w2 := by
  subst hl
  subst hd
  subst hw
  rfl

/-- Witness for C7: two calls on the sample input agree. -/
theorem bar_subplot_deterministic_witness :
    bar_subplot wLabels wData (7/10) = bar_subplot wLabels wData (7/10) :=
  bar_subplot_deterministic wLabels wLabels wData wData (7/10) (7/10)
    rfl rfl rfl

/-- Claim C8: the calculator mutates nothing.  In this value-semantics
embedding the arguments are immutable by construction (the Python code
only reads `xtick_labels` and the series dicts, and rebinds its local
`offset`); the theorem states the complementary frame fact: the only thing
the call produces is the returned draw-call list, and the label, values
and errors it carries are the caller's series content, verbatim and in
order — nothing else is computed or persists past the call. -/
theorem bar_subplot_preserves_series (labels : List String)
    (data : List Series) (ws : ℚ) (r : List BarCall)
    (hr : bar_subplot labels data ws = Except.ok r) :
    r.map (fun c => (c.label, c.values, c.errors)) =
      data.map (fun d => (d.label, d.values, d.errors)) := by
  rw [bar_subplot_result labels data ws r hr]
  exact barLoop_proj _ _ data _ 0

/-- Witness for C8: on the sample input the emitted calls carry exactly
the input series content. -/
theorem bar_subplot_preserves_series_witness :
    wCalls.map (fun c => (c.label, c.values, c.errors)) =
      wData.map (fun d => (d.label, d.values, d.errors)) :=
  bar_subplot_preserves_series wLabels wData (7/10) wCalls wCalls_eq

/-- Claim C9: every successful `bar_plot` call writes exactly two files, in
order the vector document `{fig_name}.pdf` and the raster image
`{fig_name}.png`, both under the caller-supplied destination directory,
and no others. -/
theorem bar_plot_two_output_files (labels : List String)
    (data : List Series) (ws : ℚ) (fig_name dest_dir : String)
    (calls : List BarCall) (files : List String)
    (hr : bar_plot labels data ws fig_name dest_dir =
      Except.ok (calls, files)) :
    files = [dest_dir ++ "/" ++ fig_name ++ ".pdf",
             dest_dir ++ "/" ++ fig_name ++ ".png"] ∧
    files.length = 2 := by
  unfold bar_plot at hr
  cases h : bar_subplot labels data ws with
  | error e =>
    rw [h] at hr
    exact absurd hr (by simp)
  | ok c =>
    rw [h] at hr
    simp only [Except.ok.injEq, Prod.mk.injEq] at hr
    refine ⟨hr.2.symm, ?_⟩
    rw [← hr.2]
    rfl

/-- Witness for C9: a concrete `bar_plot` call on one series writes
`out/fig.pdf` then `out/fig.png` and nothing else. -/
theorem bar_plot_two_output_files_witness :
    (["out" ++ "/" ++ "fig" ++ ".pdf", "out" ++ "/" ++ "fig" ++ ".png"] :
        List String) =
      ["out" ++ "/" ++ "fig" ++ ".pdf", "out" ++ "/" ++ "fig" ++ ".png"] ∧
    (["out" ++ "/" ++ "fig" ++ ".pdf", "out" ++ "/" ++ "fig" ++ ".png"] :
        List String).length = 2 :=
  bar_plot_two_output_files ["A"] [{ label := "s", values := [1], errors := [0] }]
    (7/10) "fig" "out" wPlotCalls
    ["out" ++ "/" ++ "fig" ++ ".pdf", "out" ++ "/" ++ "fig" ++ ".png"]
    (by norm_num [bar_plot, bar_subplot, barLoop, palette, hatch_list,
      wPlotCalls, List.range_succ])

/-- Claim C10: the calculator fails with the division-by-zero error (the
Python `ZeroDivisionError` at `bar_width = width_scale/nb_catgs`) exactly
when the series list is empty; the error branch emits no rendering call. -/
theorem bar_subplot_empty_series_error (labels : List String)
    (data : List Series) (ws : ℚ) :
    bar_subplot labels data ws = Except.error LayoutError.divisionByZero ↔
      data = [] := by
  constructor
  · intro h
    by_contra hne
    rw [bar_subplot_ok_eq labels data ws hne] at h
    exact Except.noConfusion h
  · intro h
    subst h
    rfl

end PlotStyle
